import Mathlib

/-!
Shallow embedding of the portfolio and trading-environment core of the
trading_bot repository (src/portfolio.py, src/mock_portfolio.py, src/agent.py).

Python floats are modelled as rationals (ℚ); Python dicts keyed by asset
symbol are modelled as association lists with unique keys in insertion
order; a Python function that can raise returns `Except PyErr α`.
-/

namespace TradingBot

/-- Python exception classes that the modelled code can raise. -/
inductive PyErr where
  | valueError
  | keyError
  | typeError
  | attributeError
  | zeroDivisionError
  | indexError
  deriving DecidableEq

/-- Dict read: `d.get(s)` / `d[s]`, first (unique) matching key. -/
def lookup (s : String) : List (String × ℚ) → Option ℚ
  | [] => none
  | (k, v) :: rest => if k = s then some v else lookup s rest

/-- Dict write `d[s] = v`: overwrite in place, else append (Python dicts
keep insertion order and append new keys at the end). -/
def setKey (s : String) (v : ℚ) : List (String × ℚ) → List (String × ℚ)
  | [] => [(s, v)]
  | (k, w) :: rest => if k = s then (k, v) :: rest else (k, w) :: setKey s v rest

/-- Dict delete `del d[s]`. -/
def delKey (s : String) : List (String × ℚ) → List (String × ℚ)
  | [] => []
  | (k, w) :: rest => if k = s then delKey s rest else (k, w) :: delKey s rest

/-- State of `EnhancedPortfolio` (src/portfolio.py).  `__init__` sets
balance 10000, fee_rate 0.001, holdings {}, risk_limit 0.05,
growth_limit 0.2, trading_active True. -/
structure EnhancedPortfolio where
  balance : ℚ
  fee_rate : ℚ
  holdings : List (String × ℚ)
  risk_limit : ℚ
  growth_limit : ℚ
  trading_active : Bool
  deriving DecidableEq

namespace EnhancedPortfolio

/-- Source `EnhancedPortfolio.adjust_risk_limit(self, performance, volatility)`
(src/portfolio.py lines 25-40), acting on the `risk_limit` field:
performance-based multiplicative update, then volatility-based one. -/
def adjust_risk_limit (risk_limit performance volatility : ℚ) : ℚ :=
  let rl1 :=
    if performance > 0 then min (1/10) (risk_limit * (11/10))
    else max (1/100) (risk_limit * (9/10))
  if volatility > 2/100 then max (5/100) (rl1 * (9/10))
  else min (1/10) (rl1 * (105/100))

/-- Source `EnhancedPortfolio.calculate_risk(self, price, quantity)`
(src/portfolio.py lines 58-66): `price*quantity / self.balance`.
Python raises ZeroDivisionError when the denominator is exactly zero. -/
def calculate_risk (p : EnhancedPortfolio) (price quantity : ℚ) : Except PyErr ℚ :=
  if p.balance = 0 then .error .zeroDivisionError
  else .ok (price * quantity / p.balance)

/-- One term of the generator in `can_invest_more`
(src/portfolio.py line 79): `qty * price for qty, price in self.holdings.items()`.
`items()` yields `(symbol, stored_quantity)` pairs, so the loop variable
`qty` is bound to the SYMBOL (a str) and `price` to the stored quantity
(a number).  `str * float` raises TypeError immediately; `str * int`
yields a str, which the int-initialised `sum` (`0 + str`) then fails to
add, also a TypeError.  Either way the term contributes a TypeError. -/
def pyHoldingsTerm (_item : String × ℚ) : Except PyErr ℚ :=
  .error .typeError

/-- The `sum(qty * price for qty, price in self.holdings.items())`
expression of `can_invest_more`: ok 0 on an empty dict, otherwise the
first term raises (see `pyHoldingsTerm`). -/
def pyHoldingsSum : List (String × ℚ) → Except PyErr ℚ
  | [] => .ok 0
  | item :: rest => do
    let x ← pyHoldingsTerm item
    let s ← pyHoldingsSum rest
    .ok (x + s)

/-- Source `EnhancedPortfolio.can_invest_more(self, symbol, price, quantity)`
(src/portfolio.py lines 68-81). -/
def can_invest_more (p : EnhancedPortfolio) (symbol : String) (price quantity : ℚ) :
    Except PyErr Bool := do
  let current_value := (lookup symbol p.holdings).getD 0 * price
  let new_value := current_value + price * quantity
  let s ← pyHoldingsSum p.holdings
  let total_portfolio_value := p.balance + s
  if total_portfolio_value = 0 then .error .zeroDivisionError
  else .ok (new_value / total_portfolio_value ≤ p.growth_limit)

/-- Source `EnhancedPortfolio.buy(self, symbol, price, quantity)`
(src/portfolio.py lines 83-102).  `apply_slippage` multiplies the price
by `1 + U(-0.01, 0.01)`; the random draw is made explicit as the `slip`
argument, so the adjusted price is `price * (1 + slip)`.  The three
guards raise ValueError; there is no `trading_active` check in this
variant. -/
def buy (p : EnhancedPortfolio) (symbol : String) (price quantity slip : ℚ) :
    Except PyErr EnhancedPortfolio := do
  let price := price * (1 + slip)
  let total_cost := price * quantity * (1 + p.fee_rate)
  let risk ← calculate_risk p price quantity
  if risk > p.risk_limit then .error .valueError
  else do
    let ok ← can_invest_more p symbol price quantity
    if !ok then .error .valueError
    else if total_cost > p.balance then .error .valueError
    else .ok { p with
      balance := p.balance - total_cost,
      holdings := setKey symbol ((lookup symbol p.holdings).getD 0 + quantity) p.holdings }

/-- Source `EnhancedPortfolio.sell(self, symbol, price, quantity)`
(src/portfolio.py lines 104-112): holdings guard, slippage, credit
balance, decrement holdings.  No `trading_active` check and no removal
of a zero-quantity entry in this variant. -/
def sell (p : EnhancedPortfolio) (symbol : String) (price quantity slip : ℚ) :
    Except PyErr EnhancedPortfolio :=
  match lookup symbol p.holdings with
  | none => .error .valueError
  | some held =>
    if held < quantity then .error .valueError
    else
      let price := price * (1 + slip)
      let total_value := price * quantity
      .ok { p with
        balance := p.balance + total_value * (1 - p.fee_rate),
        holdings := setKey symbol (held - quantity) p.holdings }

end EnhancedPortfolio

/-- State of `MockPortfolio` (src/mock_portfolio.py).  `__init__` takes
initial_balance (default 10000) and fee_rate (default 0.001). -/
structure MockPortfolio where
  initial_balance : ℚ
  balance : ℚ
  fee_rate : ℚ
  holdings : List (String × ℚ)
  trading_active : Bool
  deriving DecidableEq

namespace MockPortfolio

/-- Source `MockPortfolio.reset(self)` (src/mock_portfolio.py lines 16-21). -/
def reset (p : MockPortfolio) : MockPortfolio :=
  { p with balance := p.initial_balance, holdings := [], trading_active := true }

/-- Source `MockPortfolio.calculate_risk(self, price, quantity)`
(src/mock_portfolio.py lines 23-31): same division as the enhanced
variant, ZeroDivisionError when `balance == 0`. -/
def calculate_risk (p : MockPortfolio) (price quantity : ℚ) : Except PyErr ℚ :=
  if p.balance = 0 then .error .zeroDivisionError
  else .ok (price * quantity / p.balance)

/-- Source `MockPortfolio.can_invest_more(self, symbol, price, quantity)`
(src/mock_portfolio.py lines 33-46): identical body to the enhanced
variant, including the `for qty, price in self.holdings.items()`
generator, with the literal growth limit 0.2. -/
def can_invest_more (p : MockPortfolio) (symbol : String) (price quantity : ℚ) :
    Except PyErr Bool := do
  let current_value := (lookup symbol p.holdings).getD 0 * price
  let new_value := current_value + price * quantity
  let s ← EnhancedPortfolio.pyHoldingsSum p.holdings
  let total_portfolio_value := p.balance + s
  if total_portfolio_value = 0 then .error .zeroDivisionError
  else .ok (new_value / total_portfolio_value ≤ 2/10)

/-- Source `MockPortfolio.buy(self, symbol, price, quantity)`
(src/mock_portfolio.py lines 48-65): trading_active guard, balance
guard, then debit balance and add to holdings.  No slippage, no
risk/growth checks in this variant. -/
def buy (p : MockPortfolio) (symbol : String) (price quantity : ℚ) :
    Except PyErr MockPortfolio :=
  if p.trading_active = false then .error .valueError
  else
    let total_cost := price * quantity * (1 + p.fee_rate)
    if total_cost > p.balance then .error .valueError
    else .ok { p with
      balance := p.balance - total_cost,
      holdings := setKey symbol ((lookup symbol p.holdings).getD 0 + quantity) p.holdings }

/-- Source `MockPortfolio.sell(self, symbol, price, quantity)`
(src/mock_portfolio.py lines 67-87): trading_active guard, holdings
guard, credit balance, decrement, and `del` the entry if the resulting
quantity is exactly zero. -/
def sell (p : MockPortfolio) (symbol : String) (price quantity : ℚ) :
    Except PyErr MockPortfolio :=
  if p.trading_active = false then .error .valueError
  else match lookup symbol p.holdings with
  | none => .error .valueError
  | some held =>
    if held < quantity then .error .valueError
    else
      let total_value := price * quantity * (1 - p.fee_rate)
      let newHoldings := setKey symbol (held - quantity) p.holdings
      .ok { p with
        balance := p.balance + total_value,
        holdings := if held - quantity = 0 then delKey symbol newHoldings else newHoldings }

end MockPortfolio

/-! ## Trading environment (src/agent.py)

`MultiAssetTradingEnv` is constructed over a `MockPortfolio`
(src/mock_train_agent.py wires `MockPortfolio`; src/main.py imports a
class `Portfolio` that src/portfolio.py does not define, so the mock
composition is the one the repository runs).  A bar of `historical_data`
is modelled by its `close` price and optional `ADX` column; row access
`df.iloc[i]` raises IndexError when `i` is out of range. -/

/-- One row of the `historical_data` frame of an asset: the `close` column
and the optional `ADX` trend-strength column read with default 0. -/
structure Bar where
  close : ℚ
  adx : Option ℚ
  deriving DecidableEq

/-- Row access `historical_data[asset].iloc[i]`: positional, IndexError
out of range. -/
def getBar (bars : List Bar) (i : ℕ) : Except PyErr Bar :=
  match bars.get? i with
  | some b => .ok b
  | none => .error .indexError

/-- Mutable state of `MultiAssetTradingEnv`: the augmented per-asset
bar series (fixed asset order), `current_step`, the `previous_value`
attribute the environment stores on the portfolio object, and the
portfolio itself. -/
structure EnvState where
  hist : List (String × List Bar)
  current_step : ℕ
  previous_value : ℚ
  portfolio : MockPortfolio
  deriving DecidableEq

/-- The dict comprehension of `_calculate_reward` (src/agent.py line 158):
a dict of each close price indexed by asset, at row `current_step`. -/
def buildPrices (i : ℕ) : List (String × List Bar) → Except PyErr (List (String × ℚ))
  | [] => .ok []
  | (a, bars) :: rest => do
    let b ← getBar bars i
    let ps ← buildPrices i rest
    .ok ((a, b.close) :: ps)

/-- The call `self.portfolio.get_total_value(current_prices)`
(src/agent.py lines 36-38 and 159).  `MockPortfolio.get_total_value(self)`
(src/mock_portfolio.py lines 96-105) takes no argument besides `self`,
so passing the price dict raises TypeError.  (`EnhancedPortfolio` has no
`get_total_value` at all, which would raise AttributeError instead.) -/
def get_total_value_called_with_prices (_p : MockPortfolio) (_prices : List (String × ℚ)) :
    Except PyErr ℚ :=
  .error .typeError

/-- The call `self.portfolio.adjust_risk_limit(reward)` (src/agent.py
line 163).  `MockPortfolio` defines no `adjust_risk_limit`, so the
attribute lookup raises AttributeError.  (`EnhancedPortfolio.adjust_risk_limit`
requires two arguments, so that variant would raise TypeError.) -/
def adjust_risk_limit_called_on_mock (_p : MockPortfolio) (_reward : ℚ) :
    Except PyErr Unit :=
  .error .attributeError

/-- The call `self.portfolio.adjust_growth_limit(trend_strength)`
(src/agent.py line 99).  `MockPortfolio` defines no `adjust_growth_limit`,
so the attribute lookup raises AttributeError. -/
def adjust_growth_limit_called_on_mock (_p : MockPortfolio) (_trend : ℚ) :
    Except PyErr Unit :=
  .error .attributeError

/-- Source `MultiAssetTradingEnv._calculate_reward(self, action)` (src/agent.py
lines 155-169): the try-block builds current prices, calls
`get_total_value(current_prices)`, computes the relative reward, calls
`adjust_risk_limit(reward)` and updates `previous_value`; any exception
yields the fallback reward -1 with `previous_value` untouched.  Returns
(reward, new environment state). -/
def calculate_reward (env : EnvState) : ℚ × EnvState :=
  match (do
      let prices ← buildPrices env.current_step env.hist
      let current_value ← get_total_value_called_with_prices env.portfolio prices
      let reward := (current_value - env.previous_value) / max env.previous_value (1/100000000)
      let _ ← adjust_risk_limit_called_on_mock env.portfolio reward
      .ok (reward, current_value) : Except PyErr (ℚ × ℚ)) with
  | .ok (r, cv) => (r, { env with previous_value := cv })
  | .error _ => (-1, env)

/-- Body of the per-asset loop of `step` (src/agent.py lines 94-108),
before the except clauses: read the bar at `current_step`, read
`ADX` with default 0, call `adjust_growth_limit`, then dispatch on the
sign of `action[i]` (buy with `quantity = action[i]*balance/price`,
sell with `quantity = -action[i]*holdings.get(asset, 0)`, or no-op). -/
def stepAsset (p : MockPortfolio) (asset : String) (bars : List Bar) (i : ℕ) (a : ℚ) :
    Except PyErr MockPortfolio := do
  let bar ← getBar bars i
  let trend_strength := bar.adx.getD 0
  let _ ← adjust_growth_limit_called_on_mock p trend_strength
  if a > 0 then
    if bar.close = 0 then .error .zeroDivisionError
    else MockPortfolio.buy p asset bar.close (a * p.balance / bar.close)
  else if a < 0 then
    MockPortfolio.sell p asset bar.close (-a * (lookup asset p.holdings).getD 0)
  else .ok p

/-- The exception classes caught by the per-asset try of `step`
(src/agent.py lines 110-113): `except ValueError` and `except KeyError`
only. -/
def caughtInStep : PyErr → Bool
  | .valueError => true
  | .keyError => true
  | _ => false

/-- The `for i, asset in enumerate(self.assets)` loop of `step`
(src/agent.py lines 93-113): a caught exception skips the asset and the
loop continues with the next one; any other exception propagates.
`action[i]` on a too-short action vector raises IndexError. -/
def stepLoop (p : MockPortfolio) (i : ℕ) :
    List (String × List Bar) → List ℚ → Except PyErr MockPortfolio
  | [], _ => .ok p
  | _ :: _, [] => .error .indexError
  | (asset, bars) :: rest, a :: as =>
    match stepAsset p asset bars i a with
    | .ok p' => stepLoop p' i rest as
    | .error e => if caughtInStep e then stepLoop p i rest as else .error e

/-- Source `MultiAssetTradingEnv.step(self, action)` (src/agent.py lines
88-123): increment `current_step` first, run the per-asset loop, compute
the reward, compute `done` as
`current_step >= len(historical_data[assets[0]]) - 1` (IndexError on an
empty asset list).  Returns (reward, done, new state); the observation is
not modelled here (see `pyNormalize` for its normalization core). -/
def step (env : EnvState) (action : List ℚ) : Except PyErr (ℚ × Bool × EnvState) := do
  let i := env.current_step + 1
  let p' ← stepLoop env.portfolio i env.hist action
  let env1 : EnvState := { env with current_step := i, portfolio := p' }
  let (reward, env2) := calculate_reward env1
  match env.hist with
  | [] => .error .indexError
  | (_, bars) :: _ => .ok (reward, decide ((i : ℤ) ≥ (bars.length : ℤ) - 1), env2)

/-- Source `MultiAssetTradingEnv.reset(self, seed, options)` (src/agent.py lines
76-86): `current_step = 0` and `portfolio.reset()`.  The `previous_value`
attribute stored on the portfolio object is not touched. -/
def EnvState.reset (env : EnvState) : EnvState :=
  { env with current_step := 0, portfolio := MockPortfolio.reset env.portfolio }

/-- Value of `np.min` over a non-empty vector `x :: xs`. -/
def npMin (x : ℚ) (xs : List ℚ) : ℚ := xs.foldl min x

/-- Value of `np.max` over a non-empty vector `x :: xs`. -/
def npMax (x : ℚ) (xs : List ℚ) : ℚ := xs.foldl max x

/-- Source `MultiAssetTradingEnv._normalize(self, data)` (src/agent.py lines
143-153): min-max normalization to [-1, 1], all-zero output of the same
length when `max == min`.  `np.min` of an empty array raises. -/
def pyNormalize : List ℚ → Except PyErr (List ℚ)
  | [] => .error .valueError
  | x :: xs =>
    let min_data := npMin x xs
    let max_data := npMax x xs
    if max_data = min_data then .ok ((x :: xs).map fun _ => 0)
    else .ok ((x :: xs).map fun v => 2 * (v - min_data) / (max_data - min_data) - 1)

/-- Iterated `adjust_risk_limit` calls: fold the (performance, volatility)
argument pairs over the `risk_limit` field. -/
def runAdjustCalls (risk_limit : ℚ) (calls : List (ℚ × ℚ)) : ℚ :=
  calls.foldl (fun rl pv => EnhancedPortfolio.adjust_risk_limit rl pv.1 pv.2) risk_limit

/-- Modelled from the spec for comparison (spec section 4.2, Reward):
`reward = (current_total_value - previous_value) / max(previous_value, 1e-8)`,
the value the reward is claimed to take relative to the pre-reset
`previous_value`. -/
def rewardRelativeTo (previous current : ℚ) : ℚ :=
  (current - previous) / max previous (1/100000000)

/-- Property that every symbol present in a holdings dict has strictly
positive quantity. -/
def posHoldings (h : List (String × ℚ)) : Prop := ∀ e ∈ h, 0 < e.2

/-! ## Concrete states used by the theorems below -/

/-- Enhanced portfolio in the initial `__init__` state except for
`risk_limit = 0.1` (reachable via `adjust_risk_limit`), used for the
spec scenario `buy("BTC", 100, 10)` from balance 10000. -/
def pC2w : EnhancedPortfolio :=
  { balance := 10000, fee_rate := 1/1000, holdings := [], risk_limit := 1/10,
    growth_limit := 1/5, trading_active := true }

/-- Enhanced portfolio in the default state but with trading halted
(`stop_trading` sets `trading_active = False`). -/
def pC4 : EnhancedPortfolio :=
  { balance := 10000, fee_rate := 1/1000, holdings := [], risk_limit := 1/20,
    growth_limit := 1/5, trading_active := false }

/-- Result state of `pC4.buy("BTC", 1, 100)` with zero slippage draw:
cost 1 * 100 * 1.001 = 100.1. -/
def pC4ok : EnhancedPortfolio :=
  { pC4 with balance := 10000 - 1 * (1 + 0) * 100 * (1 + 1/1000), holdings := [("BTC", 100)] }

/-- Enhanced portfolio with one non-empty holding, balance 10000. -/
def pC5 : EnhancedPortfolio :=
  { balance := 10000, fee_rate := 1/1000, holdings := [("BTC", 1)], risk_limit := 1/20,
    growth_limit := 1/5, trading_active := true }

/-- Enhanced portfolio holding 10 BTC, about to sell all of them. -/
def pC6 : EnhancedPortfolio :=
  { balance := 1000, fee_rate := 1/1000, holdings := [("BTC", 10)], risk_limit := 1/20,
    growth_limit := 1/5, trading_active := true }

/-- Result state of `pC6.sell("BTC", 120, 10)` with zero slippage draw:
proceeds 120 * 10 * 0.999 credited, BTC entry left at quantity 0. -/
def pC6ok : EnhancedPortfolio :=
  { pC6 with balance := 1000 + 120 * (1 + 0) * 10 * (1 - 1/1000), holdings := [("BTC", 0)] }

/-- Mock portfolio holding 5 BTC, used to witness the positive-holdings
invariant of the mock variant. -/
def mockW : MockPortfolio :=
  { initial_balance := 1000, balance := 1000, fee_rate := 1/1000,
    holdings := [("BTC", 5)], trading_active := true }

/-- Result state of `mockW.sell("BTC", 100, 5)`: the BTC entry reaches
exactly zero and is deleted. -/
def mockW2 : MockPortfolio :=
  { mockW with balance := 1000 + 100 * 5 * (1 - 1/1000), holdings := [] }

/-- Enhanced portfolio with `balance == 0`. -/
def pC8 : EnhancedPortfolio :=
  { balance := 0, fee_rate := 1/1000, holdings := [], risk_limit := 1/20,
    growth_limit := 1/5, trading_active := true }

/-- Fresh mock portfolio in its `__init__` state. -/
def mockC1 : MockPortfolio :=
  { initial_balance := 10000, balance := 10000, fee_rate := 1/1000, holdings := [],
    trading_active := true }

/-- Environment after one step of a two-bar episode over one asset, with
an untouched portfolio, so an all-zeros action changes nothing and the
claimed reward would be 0. -/
def envC1 : EnvState :=
  { hist := [("BTC", [⟨100, none⟩, ⟨100, none⟩])], current_step := 1,
    previous_value := 10000, portfolio := mockC1 }

/-- Freshly-constructed environment (step 0) over the same data. -/
def envC3 : EnvState :=
  { hist := [("BTC", [⟨100, none⟩, ⟨100, none⟩])], current_step := 0,
    previous_value := 10000, portfolio := mockC1 }

/-- Mock portfolio mid-episode: balance 7000, 2 BTC held, trading
halted, with `initial_balance` 10000. -/
def mockC10 : MockPortfolio :=
  { initial_balance := 10000, balance := 7000, fee_rate := 1/1000,
    holdings := [("BTC", 2)], trading_active := false }

/-- Environment mid-episode whose `previous_value` attribute records the
pre-reset total value 12000. -/
def envC10 : EnvState :=
  { hist := [("BTC", [⟨100, none⟩, ⟨100, none⟩])], current_step := 5,
    previous_value := 12000, portfolio := mockC10 }

/-! ## Helper lemmas -/

theorem ok_bind {α β : Type} (a : α) (f : α → Except PyErr β) :
    (Except.ok a : Except PyErr α) >>= f = f a := rfl

theorem error_bind {α β : Type} (e : PyErr) (f : α → Except PyErr β) :
    (Except.error e : Except PyErr α) >>= f = Except.error e := rfl

theorem lookup_setKey_self (s : String) (v : ℚ) (h : List (String × ℚ)) :
    lookup s (setKey s v h) = some v := by
  induction h with
  | nil => simp [setKey, lookup]
  | cons kv rest ih =>
    obtain ⟨k, w⟩ := kv
    by_cases hk : k = s
    · simp [setKey, lookup, hk]
    · simp [setKey, lookup, hk, ih]

theorem mem_setKey (e : String × ℚ) (s : String) (v : ℚ) (h : List (String × ℚ))
    (hm : e ∈ setKey s v h) : e = (s, v) ∨ e ∈ h := by
  induction h with
  | nil => simpa [setKey] using hm
  | cons kv rest ih =>
    obtain ⟨k, w⟩ := kv
    by_cases hk : k = s
    · subst hk
      rcases (by simpa [setKey] using hm : e = (k, v) ∨ e ∈ rest) with h1 | h1
      · exact Or.inl h1
      · exact Or.inr (List.mem_cons_of_mem _ h1)
    · rcases (by simpa [setKey, hk] using hm : e = (k, w) ∨ e ∈ setKey s v rest) with h1 | h1
      · exact Or.inr (by simp [h1])
      · rcases ih h1 with h2 | h2
        · exact Or.inl h2
        · exact Or.inr (List.mem_cons_of_mem _ h2)

theorem mem_delKey (e : String × ℚ) (s : String) (h : List (String × ℚ))
    (hm : e ∈ delKey s h) : e ∈ h ∧ e.1 ≠ s := by
  induction h with
  | nil => simp [delKey] at hm
  | cons kv rest ih =>
    obtain ⟨k, w⟩ := kv
    by_cases hk : k = s
    · have := ih (by simpa [delKey, hk] using hm)
      exact ⟨List.mem_cons_of_mem _ this.1, this.2⟩
    · rcases (by simpa [delKey, hk] using hm : e = (k, w) ∨ e ∈ delKey s rest) with h1 | h1
      · exact ⟨by simp [h1], by simp [h1, hk]⟩
      · have := ih h1
        exact ⟨List.mem_cons_of_mem _ this.1, this.2⟩

theorem lookup_mem (s : String) (q : ℚ) (h : List (String × ℚ))
    (hl : lookup s h = some q) : (s, q) ∈ h := by
  induction h with
  | nil => simp [lookup] at hl
  | cons kv rest ih =>
    obtain ⟨k, w⟩ := kv
    by_cases hk : k = s
    · subst hk
      simp [lookup] at hl
      simp [hl]
    · exact List.mem_cons_of_mem _ (ih (by simpa [lookup, hk] using hl))

theorem calculate_reward_fallback (env : EnvState) : calculate_reward env = (-1, env) := by
  unfold calculate_reward
  cases h : buildPrices env.current_step env.hist with
  | ok prices => simp [h, ok_bind, error_bind, get_total_value_called_with_prices]
  | error e => simp [h, error_bind]

theorem npMin_le (x : ℚ) (xs : List ℚ) : ∀ v ∈ x :: xs, npMin x xs ≤ v := by
  induction xs generalizing x with
  | nil => simp [npMin]
  | cons y ys ih =>
    intro v hv
    have hfold : npMin x (y :: ys) = npMin (min x y) ys := rfl
    have hmin : npMin (min x y) ys ≤ min x y := ih (min x y) _ (List.mem_cons_self _ _)
    rcases List.mem_cons.mp hv with h1 | h1
    · rw [hfold, h1]
      exact le_trans hmin (min_le_left _ _)
    · rcases List.mem_cons.mp h1 with h2 | h2
      · rw [hfold, h2]
        exact le_trans hmin (min_le_right _ _)
      · exact hfold ▸ ih (min x y) v (List.mem_cons_of_mem _ h2)

theorem le_npMax (x : ℚ) (xs : List ℚ) : ∀ v ∈ x :: xs, v ≤ npMax x xs := by
  induction xs generalizing x with
  | nil => simp [npMax]
  | cons y ys ih =>
    intro v hv
    have hfold : npMax x (y :: ys) = npMax (max x y) ys := rfl
    have hmax : max x y ≤ npMax (max x y) ys := ih (max x y) _ (List.mem_cons_self _ _)
    rcases List.mem_cons.mp hv with h1 | h1
    · rw [hfold, h1]
      exact le_trans (le_max_left _ _) hmax
    · rcases List.mem_cons.mp h1 with h2 | h2
      · rw [hfold, h2]
        exact le_trans (le_max_right _ _) hmax
      · exact hfold ▸ ih (max x y) v (List.mem_cons_of_mem _ h2)

theorem npMin_mem (x : ℚ) (xs : List ℚ) : npMin x xs ∈ x :: xs := by
  induction xs generalizing x with
  | nil => simp [npMin]
  | cons y ys ih =>
    have hfold : npMin x (y :: ys) = npMin (min x y) ys := rfl
    rcases List.mem_cons.mp (hfold ▸ ih (min x y)) with h1 | h1
    · rcases min_choice x y with h2 | h2
      · rw [hfold, h1, h2]; exact List.mem_cons_self _ _
      · rw [hfold, h1, h2]; exact List.mem_cons_of_mem _ (List.mem_cons_self _ _)
    · exact hfold ▸ List.mem_cons_of_mem _ (List.mem_cons_of_mem _ h1)

theorem npMax_mem (x : ℚ) (xs : List ℚ) : npMax x xs ∈ x :: xs := by
  induction xs generalizing x with
  | nil => simp [npMax]
  | cons y ys ih =>
    have hfold : npMax x (y :: ys) = npMax (max x y) ys := rfl
    rcases List.mem_cons.mp (hfold ▸ ih (max x y)) with h1 | h1
    · rcases max_choice x y with h2 | h2
      · rw [hfold, h1, h2]; exact List.mem_cons_self _ _
      · rw [hfold, h1, h2]; exact List.mem_cons_of_mem _ (List.mem_cons_self _ _)
    · exact hfold ▸ List.mem_cons_of_mem _ (List.mem_cons_of_mem _ h1)

theorem adjust_risk_limit_mem (rl p v : ℚ) (h1 : 1/100 ≤ rl) (h2 : rl ≤ 1/10) :
    1/100 ≤ EnhancedPortfolio.adjust_risk_limit rl p v ∧
    EnhancedPortfolio.adjust_risk_limit rl p v ≤ 1/10 := by
  unfold EnhancedPortfolio.adjust_risk_limit
  have hs : 1/100 ≤ (if p > 0 then min (1/10) (rl * (11/10)) else max (1/100) (rl * (9/10))) ∧
      (if p > 0 then min (1/10) (rl * (11/10)) else max (1/100) (rl * (9/10))) ≤ 1/10 := by
    split_ifs with hp
    · exact ⟨le_min (by norm_num) (by linarith), min_le_left _ _⟩
    · exact ⟨le_max_left _ _, max_le (by norm_num) (by linarith)⟩
  set rl1 := (if p > 0 then min (1/10) (rl * (11/10)) else max (1/100) (rl * (9/10))) with hdef
  split_ifs with hv
  · exact ⟨le_trans (by norm_num) (le_max_left _ _), max_le (by norm_num) (by linarith [hs.2])⟩
  · exact ⟨le_min (by norm_num) (by linarith [hs.1]), min_le_left _ _⟩

/-! ## Claim theorems -/

/-- C1: in an all-zeros-action step over an untouched portfolio the claim
expects `_calculate_reward` to return 0, call `adjust_risk_limit` and
update `previous_value` without the punitive fallback; in the code the
`get_total_value(current_prices)` and `adjust_risk_limit(reward)` calls
raise, so the except-branch returns the fallback reward -1 and leaves
`previous_value` untouched. -/
theorem C1_reward_fallback_eval :
    calculate_reward envC1 = (-1, envC1) ∧ (calculate_reward envC1).1 ≠ 0 := by
  refine ⟨calculate_reward_fallback envC1, ?_⟩
  rw [calculate_reward_fallback envC1]
  norm_num

/-- C4: the claim says every buy fails with TradingHalted while
`trading_active` is false; `EnhancedPortfolio.buy` never consults
`trading_active`, so this buy succeeds and mutates the state while
halted. -/
theorem C4_halted_buy_succeeds :
    pC4.trading_active = false ∧
    EnhancedPortfolio.buy pC4 "BTC" 1 100 0 = .ok pC4ok := by
  refine ⟨rfl, ?_⟩
  norm_num [EnhancedPortfolio.buy, EnhancedPortfolio.calculate_risk,
    EnhancedPortfolio.can_invest_more, EnhancedPortfolio.pyHoldingsSum, pC4, pC4ok, lookup,
    setKey, ok_bind, error_bind]

/-- C5: the claim says `can_invest_more` returns a boolean and in
particular returns normally on non-empty holdings; the generator
`sum(qty * price for qty, price in self.holdings.items())` unpacks each
item as (symbol, quantity), so the call raises TypeError whenever
holdings is non-empty. -/
theorem C5_can_invest_more_raises :
    EnhancedPortfolio.can_invest_more pC5 "BTC" 100 1 = .error .typeError := by
  norm_num [EnhancedPortfolio.can_invest_more, EnhancedPortfolio.pyHoldingsSum,
    EnhancedPortfolio.pyHoldingsTerm, pC5, lookup, ok_bind, error_bind]

/-- C6 counterexample: a successful `EnhancedPortfolio.sell` that brings
the quantity to exactly zero leaves the symbol in `holdings` with
quantity 0, contradicting the claimed invariant. -/
theorem C6_sell_leaves_zero_entry :
    EnhancedPortfolio.sell pC6 "BTC" 120 10 0 = .ok pC6ok ∧
    lookup "BTC" pC6ok.holdings = some 0 := by
  refine ⟨?_, ?_⟩
  · norm_num [EnhancedPortfolio.sell, pC6, pC6ok, lookup, setKey]
  · norm_num [pC6ok, pC6, lookup]

/-- C8 counterexample: with `balance == 0`, `calculate_risk` raises
ZeroDivisionError instead of returning an infinite risk, refuting the
claimed division-by-zero guard. -/
theorem C8_calculate_risk_raises_eval :
    EnhancedPortfolio.calculate_risk pC8 100 1 = .error .zeroDivisionError := by
  norm_num [EnhancedPortfolio.calculate_risk, pC8]

/-- C8 amended: when `balance == 0` the `calculate_risk` division raises
ZeroDivisionError, and `buy` in that state propagates the error rather
than rejecting the trade. -/
theorem C8_balance_zero_raises (p : EnhancedPortfolio) (sym : String)
    (price quantity slip : ℚ) (h : p.balance = 0) :
    EnhancedPortfolio.calculate_risk p (price * (1 + slip)) quantity =
      .error .zeroDivisionError ∧
    EnhancedPortfolio.buy p sym price quantity slip = .error .zeroDivisionError := by
  have h1 : EnhancedPortfolio.calculate_risk p (price * (1 + slip)) quantity =
      .error .zeroDivisionError := by
    simp [EnhancedPortfolio.calculate_risk, h]
  exact ⟨h1, by simp [EnhancedPortfolio.buy, h1, error_bind]⟩

/-- Witness for C8 amended at `pC8` (balance 0). -/
theorem C8_witness :
    pC8.balance = 0 ∧
    EnhancedPortfolio.buy pC8 "BTC" 100 1 0 = .error .zeroDivisionError :=
  ⟨rfl, (C8_balance_zero_raises pC8 "BTC" 100 1 0 rfl).2⟩

/-- C10 counterexample: after `reset`, `previous_value` still holds the
pre-reset value 12000, but the first reward is the fallback -1, not the
value relative to 12000 (the reset portfolio totals 10000 at the current
prices, so the claimed relative reward would be -1/6). -/
theorem C10_first_reward_not_relative :
    (EnvState.reset envC10).previous_value = 12000 ∧
    (calculate_reward (EnvState.reset envC10)).1 = -1 ∧
    rewardRelativeTo (EnvState.reset envC10).previous_value 10000 ≠ -1 := by
  refine ⟨rfl, ?_, ?_⟩
  · rw [calculate_reward_fallback]
  · have hmax : max (12000:ℚ) (1/100000000) = 12000 := max_eq_left (by norm_num)
    norm_num [rewardRelativeTo, EnvState.reset, envC10, hmax]

/-- C10 amended: `reset` sets `current_step` to 0, restores `balance`,
`holdings` and `trading_active` to their initial values and leaves
`previous_value` unchanged; the first reward computed afterwards is the
fallback -1, because `_calculate_reward` always takes its except-branch
under the wired `MockPortfolio`. -/
theorem C10_reset_frame (env : EnvState) :
    (EnvState.reset env).current_step = 0 ∧
    (EnvState.reset env).portfolio.balance = env.portfolio.initial_balance ∧
    (EnvState.reset env).portfolio.holdings = [] ∧
    (EnvState.reset env).portfolio.trading_active = true ∧
    (EnvState.reset env).previous_value = env.previous_value ∧
    (calculate_reward (EnvState.reset env)).1 = -1 := by
  refine ⟨rfl, rfl, rfl, rfl, rfl, ?_⟩
  rw [calculate_reward_fallback]

/-- C7: starting from any `risk_limit` in [0.01, 0.10], every finite
sequence of `adjust_risk_limit(performance, volatility)` calls keeps
`risk_limit` in [0.01, 0.10]; since every prefix of a call sequence is
itself a finite sequence, the bound holds after every call. -/
theorem C7_risk_limit_bounds (rl : ℚ) (calls : List (ℚ × ℚ))
    (h1 : 1/100 ≤ rl) (h2 : rl ≤ 1/10) :
    1/100 ≤ runAdjustCalls rl calls ∧ runAdjustCalls rl calls ≤ 1/10 := by
  induction calls generalizing rl with
  | nil => exact ⟨h1, h2⟩
  | cons c cs ih =>
    have h := adjust_risk_limit_mem rl c.1 c.2 h1 h2
    simpa [runAdjustCalls, List.foldl_cons] using ih _ h.1 h.2

/-- Witness for C7 at `risk_limit = 0.05` and one call with positive
performance and volatility 0.03. -/
theorem C7_witness :
    ((1:ℚ)/100 ≤ 5/100 ∧ (5:ℚ)/100 ≤ 1/10) ∧
    (1/100 ≤ runAdjustCalls (5/100) [(1, 3/100)] ∧
      runAdjustCalls (5/100) [(1, 3/100)] ≤ 1/10) :=
  ⟨⟨by norm_num, by norm_num⟩,
    C7_risk_limit_bounds (5/100) [(1, 3/100)] (by norm_num) (by norm_num)⟩

/-- C2: whenever the slippage-adjusted price `price * (1 + slip)` gives a
risk within `risk_limit`, `can_invest_more` computes a fraction within
`growth_limit`, and the total cost fits in the balance, `buy` succeeds,
the balance decreases by exactly the total cost, and the quantity held
for the symbol increases by exactly `quantity` (entry created if
absent). -/
theorem C2_buy_succeeds (p : EnhancedPortfolio) (sym : String)
    (price quantity slip risk : ℚ)
    (hrisk : EnhancedPortfolio.calculate_risk p (price * (1 + slip)) quantity = .ok risk)
    (hle : risk ≤ p.risk_limit)
    (hgrow : EnhancedPortfolio.can_invest_more p sym (price * (1 + slip)) quantity = .ok true)
    (hbal : price * (1 + slip) * quantity * (1 + p.fee_rate) ≤ p.balance) :
    EnhancedPortfolio.buy p sym price quantity slip =
      .ok { p with
        balance := p.balance - price * (1 + slip) * quantity * (1 + p.fee_rate),
        holdings := setKey sym ((lookup sym p.holdings).getD 0 + quantity) p.holdings } ∧
    lookup sym (setKey sym ((lookup sym p.holdings).getD 0 + quantity) p.holdings) =
      some ((lookup sym p.holdings).getD 0 + quantity) := by
  constructor
  · simp [EnhancedPortfolio.buy, hrisk, ok_bind, hgrow, not_lt.mpr hle, not_lt.mpr hbal]
  · exact lookup_setKey_self sym _ p.holdings

/-- Witness for C2: the spec scenario `buy("BTC", 100, 10)` from balance
10000 with fee 0.001, no slippage, empty holdings and
`risk_limit = 0.1`: cost 1001, new balance 8999, 10 BTC held. -/
theorem C2_witness :
    EnhancedPortfolio.calculate_risk pC2w (100 * (1 + 0)) 10 = .ok (1/10) ∧
    (1:ℚ)/10 ≤ pC2w.risk_limit ∧
    EnhancedPortfolio.can_invest_more pC2w "BTC" (100 * (1 + 0)) 10 = .ok true ∧
    100 * (1 + 0) * 10 * (1 + pC2w.fee_rate) ≤ pC2w.balance ∧
    EnhancedPortfolio.buy pC2w "BTC" 100 10 0 =
      .ok { pC2w with
        balance := pC2w.balance - 100 * (1 + 0) * 10 * (1 + pC2w.fee_rate),
        holdings := setKey "BTC" ((lookup "BTC" pC2w.holdings).getD 0 + 10) pC2w.holdings } :=
  ⟨by norm_num [EnhancedPortfolio.calculate_risk, pC2w],
   by norm_num [pC2w],
   by norm_num [EnhancedPortfolio.can_invest_more, EnhancedPortfolio.pyHoldingsSum, pC2w,
     lookup, ok_bind],
   by norm_num [pC2w],
   (C2_buy_succeeds pC2w "BTC" 100 10 0 (1/10)
     (by norm_num [EnhancedPortfolio.calculate_risk, pC2w])
     (by norm_num [pC2w])
     (by norm_num [EnhancedPortfolio.can_invest_more, EnhancedPortfolio.pyHoldingsSum, pC2w,
       lookup, ok_bind])
     (by norm_num [pC2w])).1⟩

/-- C3 counterexample: a concrete step over one asset with the all-hold
action raises AttributeError out of the per-asset loop (the
`adjust_growth_limit` call on the wired `MockPortfolio`), so `step` does
not return normally. -/
theorem C3_step_raises_eval : step envC3 [0] = .error .attributeError := by
  norm_num [step, stepLoop, stepAsset, getBar, adjust_growth_limit_called_on_mock,
    caughtInStep, envC3, mockC1, ok_bind, error_bind]

/-- C3 amended: the per-asset try only catches ValueError and KeyError;
under the wired `MockPortfolio` every `step` call raises an uncaught
AttributeError (from `adjust_growth_limit`) or IndexError (missing bar,
short action vector, or empty asset list) instead of returning
normally. -/
theorem C3_step_always_raises (env : EnvState) (action : List ℚ) :
    step env action = .error .attributeError ∨ step env action = .error .indexError := by
  cases henv : env.hist with
  | nil =>
    right
    simp [step, stepLoop, henv, ok_bind, error_bind, calculate_reward_fallback]
  | cons ab rest =>
    obtain ⟨asset, bars⟩ := ab
    cases action with
    | nil =>
      right
      simp [step, stepLoop, henv, error_bind]
    | cons a as =>
      cases hb : bars[env.current_step + 1]? with
      | none =>
        right
        simp [step, stepLoop, stepAsset, getBar, henv, hb, error_bind, ok_bind, caughtInStep]
      | some b =>
        left
        simp [step, stepLoop, stepAsset, getBar, henv, hb,
          adjust_growth_limit_called_on_mock, error_bind, ok_bind, caughtInStep]

/-- C6 amended: the mock variant maintains the positive-holdings
invariant — `MockPortfolio.buy` with positive quantity and every
successful `MockPortfolio.sell` (which deletes an entry that reaches
exactly zero) preserve it — while `EnhancedPortfolio.sell` does not
(see the counterexample). -/
theorem C6_mock_holdings_positive (p p2 : MockPortfolio) (sym : String) (price q : ℚ)
    (hp : posHoldings p.holdings) :
    (0 < q → MockPortfolio.buy p sym price q = .ok p2 → posHoldings p2.holdings) ∧
    (MockPortfolio.sell p sym price q = .ok p2 → posHoldings p2.holdings) := by
  have hold_nonneg : 0 ≤ (lookup sym p.holdings).getD 0 := by
    cases hl : lookup sym p.holdings with
    | none => simp
    | some w => simpa using le_of_lt (hp _ (lookup_mem sym w p.holdings hl))
  constructor
  · intro hq hbuy
    simp only [MockPortfolio.buy] at hbuy
    by_cases h1 : p.trading_active = false
    · rw [if_pos h1] at hbuy
      exact absurd hbuy (by simp)
    · rw [if_neg h1] at hbuy
      by_cases h2 : price * q * (1 + p.fee_rate) > p.balance
      · rw [if_pos h2] at hbuy
        exact absurd hbuy (by simp)
      · rw [if_neg h2] at hbuy
        simp only [Except.ok.injEq] at hbuy
        intro e he
        rw [← hbuy] at he
        rcases mem_setKey e sym _ p.holdings he with h3 | h3
        · rw [h3]
          have h4 : (0:ℚ) < (lookup sym p.holdings).getD 0 + q := by linarith
          simpa using h4
        · exact hp e h3
  · intro hsell
    simp only [MockPortfolio.sell] at hsell
    by_cases h1 : p.trading_active = false
    · rw [if_pos h1] at hsell
      exact absurd hsell (by simp)
    · rw [if_neg h1] at hsell
      cases hl : lookup sym p.holdings with
      | none =>
        rw [hl] at hsell
        exact absurd hsell (by simp)
      | some held =>
        simp only [hl] at hsell
        by_cases hlt : held < q
        · rw [if_pos hlt] at hsell
          exact absurd hsell (by simp)
        · rw [if_neg hlt] at hsell
          simp only [Except.ok.injEq] at hsell
          have hge : q ≤ held := not_lt.mp hlt
          intro e he
          rw [← hsell] at he
          by_cases hz : held - q = 0
          · rw [if_pos hz] at he
            obtain ⟨he1, hne⟩ := mem_delKey e sym _ he
            rcases mem_setKey e sym _ p.holdings he1 with h3 | h3
            · exact absurd (by rw [h3]) hne
            · exact hp e h3
          · rw [if_neg hz] at he
            rcases mem_setKey e sym _ p.holdings he with h3 | h3
            · rw [h3]
              have h4 : (0:ℚ) < held - q := lt_of_le_of_ne (by linarith) (Ne.symm hz)
              simpa using h4
            · exact hp e h3

/-- Witness for C6 amended: selling all 5 BTC from `mockW` deletes the
entry, leaving an all-positive (empty) holdings dict. -/
theorem C6_witness :
    posHoldings mockW.holdings ∧ posHoldings mockW2.holdings :=
  ⟨by norm_num [posHoldings, mockW],
   (C6_mock_holdings_positive mockW mockW2 "BTC" 100 5
      (by norm_num [posHoldings, mockW])).2
    (by norm_num [MockPortfolio.sell, mockW, mockW2, lookup, setKey, delKey])⟩

/-- C9: for a non-degenerate vector, `_normalize` maps every component
into [-1, 1], sends the (attained) minimum to -1 and the (attained)
maximum to 1; for a degenerate vector (`max == min`, in particular any
constant vector) it returns the all-zero vector of the same length. -/
theorem C9_normalize_bounds (x : ℚ) (xs : List ℚ) :
    (npMin x xs ≠ npMax x xs →
      pyNormalize (x :: xs) =
        .ok ((x :: xs).map fun v => 2 * (v - npMin x xs) / (npMax x xs - npMin x xs) - 1) ∧
      (∀ v ∈ x :: xs,
        -1 ≤ 2 * (v - npMin x xs) / (npMax x xs - npMin x xs) - 1 ∧
        2 * (v - npMin x xs) / (npMax x xs - npMin x xs) - 1 ≤ 1) ∧
      2 * (npMin x xs - npMin x xs) / (npMax x xs - npMin x xs) - 1 = -1 ∧
      2 * (npMax x xs - npMin x xs) / (npMax x xs - npMin x xs) - 1 = 1 ∧
      npMin x xs ∈ x :: xs ∧ npMax x xs ∈ x :: xs) ∧
    (npMax x xs = npMin x xs →
      pyNormalize (x :: xs) = .ok ((x :: xs).map fun _ => 0) ∧
      ((x :: xs).map fun _ => (0:ℚ)).length = (x :: xs).length) := by
  have hminmem := npMin_mem x xs
  have hmaxmem := npMax_mem x xs
  have hle : npMin x xs ≤ npMax x xs := le_npMax x xs _ hminmem
  constructor
  · intro hne
    have hne2 : npMax x xs ≠ npMin x xs := Ne.symm hne
    have hd : 0 < npMax x xs - npMin x xs := by
      have := lt_of_le_of_ne hle hne
      linarith
    refine ⟨by simp [pyNormalize, hne2], ?_, by simp, ?_, hminmem, hmaxmem⟩
    · intro v hv
      have h1 : npMin x xs ≤ v := npMin_le x xs v hv
      have h2 : v ≤ npMax x xs := le_npMax x xs v hv
      constructor
      · have h3 : 0 ≤ (v - npMin x xs) / (npMax x xs - npMin x xs) :=
          div_nonneg (by linarith) (le_of_lt hd)
        rw [mul_div_assoc]
        linarith
      · have h3 : (v - npMin x xs) / (npMax x xs - npMin x xs) ≤ 1 :=
          (div_le_one hd).mpr (by linarith)
        rw [mul_div_assoc]
        linarith
    · rw [mul_div_assoc, div_self (ne_of_gt hd)]
      norm_num
  · intro heq
    exact ⟨by simp [pyNormalize, heq], by simp⟩

/-- Witness for C9 at the vector [0, 2]. -/
theorem C9_witness :
    npMin 0 [2] ≠ npMax 0 [2] ∧
    pyNormalize [0, 2] =
      .ok ([0, 2].map fun v => 2 * (v - npMin 0 [2]) / (npMax 0 [2] - npMin 0 [2]) - 1) :=
  ⟨by norm_num [npMin, npMax, List.foldl_cons, List.foldl_nil],
   ((C9_normalize_bounds 0 [2]).1
     (by norm_num [npMin, npMax, List.foldl_cons, List.foldl_nil])).1⟩

end TradingBot
